import Mathlib

/-!
Verification of the `disable_code` rule language and tree pruner.

This file gives a shallow embedding of `src/filter.rs` and `src/lib.rs`:
the node data model (`Item` / `ItemKind`, mirroring the fields of
`syntax::ast::Item` that the code reads or writes), the closed set of
filters (`Filter`, one constructor per `Filter` impl in `filter.rs`),
the nom-style expression parser, the expression-to-filter compiler, and
the recursive pruner `delete_item`.  Rust in-place mutation is rendered
as explicit state passing: `delete_item` returns the deletion verdict
together with the rewritten item.  Panics in parse/compile are rendered
as `Except` errors.  Theorems about the frozen claims follow the
definitions.
-/

namespace DisableCode

/-- Model of `syntax::ast::Visibility` (only its identity matters here:
the pruner never reads it, and `dummy_item` sets it to `Public`). -/
inductive Visibility where
  | public : Visibility
  | inherited : Visibility
deriving DecidableEq

/-- Model of `syntax_pos::Span` (`lo`, `hi` byte positions and a syntax
context); the pruner never reads it. -/
structure Span where
  lo : Nat
  hi : Nat
  ctxt : Nat
deriving DecidableEq

mutual
/-- Model of `syntax::ast::Item`: name (`ident`), attribute names
(`attrs`, the marker set), node id, kind (`node`), visibility and span.
Fields the filters and pruner do not touch are kept so that frame
conditions can be stated. -/
inductive Item : Type where
  | mk (ident : String) (attrs : List String) (id : Nat) (node : ItemKind)
       (vis : Visibility) (span : Span) : Item

/-- Model of `syntax::ast::ItemKind` restricted to the constructors the
code distinguishes: `Fn(..)`, `Mod(md)` (carrying the ordered child
sequence `md.items`), `ExternCrate` (used by `dummy_item`) and a
catch-all for every other kind. -/
inductive ItemKind : Type where
  | fn : ItemKind
  | mod (items : List Item) : ItemKind
  | externCrate : ItemKind
  | other : ItemKind
end

def Item.ident : Item → String
  | .mk i _ _ _ _ _ => i

def Item.attrs : Item → List String
  | .mk _ a _ _ _ _ => a

def Item.id : Item → Nat
  | .mk _ _ n _ _ _ => n

def Item.node : Item → ItemKind
  | .mk _ _ _ k _ _ => k

def Item.vis : Item → Visibility
  | .mk _ _ _ _ v _ => v

def Item.span : Item → Span
  | .mk _ _ _ _ _ s => s

/-- The discriminator of an `ItemKind`, forgetting the `Mod` payload. -/
inductive ItemKindTag where
  | fn : ItemKindTag
  | mod : ItemKindTag
  | externCrate : ItemKindTag
  | other : ItemKindTag
deriving DecidableEq

def ItemKind.tag : ItemKind → ItemKindTag
  | .fn => .fn
  | .mod _ => .mod
  | .externCrate => .externCrate
  | .other => .other

def Item.kindTag (it : Item) : ItemKindTag := it.node.tag

/-- Model of the external `regex` crate, restricted to the pattern
shapes this rule language exercises: a literal string, optionally
anchored at the start by a leading caret.  `is_match` is the crate's
unanchored search: the pattern may match anywhere in the haystack
unless it anchors itself. -/
structure Regex where
  anchored : Bool
  lit : String
deriving DecidableEq

/-- Characters treated as regex metacharacters by the model; a pattern
containing one of these (outside a leading caret) is out of the
modelled fragment and fails to compile, mirroring that `Regex::new`
is fallible. -/
def regexMeta (c : Char) : Bool :=
  c = '(' || c = ')' || c = '[' || c = ']' || c = '*' || c = '+' ||
  c = '?' || c = '|' || c = '\\' || c = '.' || c = '^' || c = '$'

/-- Model of `Regex::new`: strip an optional leading caret (anchor),
then require the remainder to be a plain literal. -/
def Regex.new (pat : String) : Except String Regex :=
  match pat.data with
  | '^' :: rest =>
      if rest.any regexMeta then .error "unsupported pattern"
      else .ok { anchored := true, lit := String.mk rest }
  | cs =>
      if cs.any regexMeta then .error "unsupported pattern"
      else .ok { anchored := false, lit := String.mk cs }

/-- Substring occurrence test on character lists: does `needle` occur
contiguously anywhere in the haystack? -/
def containsSub (needle : List Char) : List Char → Bool
  | [] => List.isPrefixOf needle []
  | c :: rest => List.isPrefixOf needle (c :: rest) || containsSub needle rest

/-- Model of `Regex::is_match`: anchored patterns must match a prefix
of the haystack, unanchored patterns may match anywhere. -/
def Regex.is_match (re : Regex) (s : String) : Bool :=
  if re.anchored then List.isPrefixOf re.lit.data s.data
  else containsSub re.lit.data s.data

/-- The closed set of filters of `filter.rs`, one constructor per
`Filter` impl: `AllFilter`, `AnyFilter`, `NotFilter`, `AlwaysFilter`,
`NeverFilter`, `RegexFilter`, `TestFilter`, `BenchFilter`, `FnFilter`,
`RootModFilter`. -/
inductive Filter : Type where
  | all (fs : List Filter) : Filter
  | any (fs : List Filter) : Filter
  | not (f : Filter) : Filter
  | always : Filter
  | never : Filter
  | regex (re : Regex) : Filter
  | test : Filter
  | bench : Filter
  | fn : Filter
  | rootMod : Filter

mutual
/-- The `Filter::apply` methods of `filter.rs`: returns false if the
item should be kept and true if it should be removed.  `TestFilter` and
`BenchFilter` call `attr::contains_name` on the item's attributes
(their debug printing is ignored); `RegexFilter` matches the item's
name; `FnFilter` and `RootModFilter` match on the item's kind. -/
def Filter.apply : Filter → Item → Bool
  | .all fs, item => applyAll fs item
  | .any fs, item => applyAny fs item
  | .not f, item => !(f.apply item)
  | .always, _ => true
  | .never, _ => false
  | .regex re, item => re.is_match item.ident
  | .test, item => item.attrs.contains "test"
  | .bench, item => item.attrs.contains "bench"
  | .fn, item =>
      match item.node with
      | ItemKind.fn => true
      | _ => false
  | .rootMod, item =>
      match item.node with
      | ItemKind.mod _ => item.ident = ""
      | _ => false

/-- The loop body of `AllFilter::apply`: returns false as soon as one
sub-filter returns false (short-circuit), true if all return true. -/
def applyAll : List Filter → Item → Bool
  | [], _ => true
  | f :: rest, item => if !(f.apply item) then false else applyAll rest item

/-- The loop body of `AnyFilter::apply`: returns true as soon as one
sub-filter returns true (short-circuit), false if all return false. -/
def applyAny : List Filter → Item → Bool
  | [], _ => false
  | f :: rest, item => if f.apply item then true else applyAny rest item
end

/-- The `and` convenience constructor of `filter.rs` (builds an
`AllFilter` from a vector of sub-filters). -/
def andF (filters : List Filter) : Filter := .all filters

/-- The `or` convenience constructor of `filter.rs` (builds an
`AnyFilter`). -/
def orF (filters : List Filter) : Filter := .any filters

/-- The `not` convenience constructor of `filter.rs` (builds a
`NotFilter`). -/
def notF (filter : Filter) : Filter := .not filter

/-- The indices recorded by the first loop of `delete_item`: positions
(counting from `i`) of the flags that are `true` — the `to_delete`
vector. -/
def idxsTrue : List Bool → Nat → List Nat
  | [], _ => []
  | b :: rest, i => if b then i :: idxsTrue rest (i + 1) else idxsTrue rest (i + 1)

/-- The second loop of `delete_item`: `md.items.remove(i - offset)` for
each recorded index, incrementing `offset` after each removal. -/
def removeIdxs : List α → List Nat → Nat → List α
  | l, [], _ => l
  | l, i :: rest, offset => removeIdxs (l.eraseIdx (i - offset)) rest (offset + 1)

mutual
/-- Model of `delete_item` in `lib.rs`: deletes any items that should
be deleted and returns true if its argument should be deleted, paired
with the rewritten item (the in-place mutation made explicit).  If the
filter matches, the item is returned untouched (the Rust function
returns early).  Otherwise, for a module, every child is recursively
processed (the dummy-swap dance is the identity in a functional
rendering), the indices of children to delete are recorded, and the
recorded children are removed with the `i - offset` bookkeeping. -/
def delete_item (filter : Filter) (item : Item) : Bool × Item :=
  if filter.apply item then (true, item)
  else
    match item with
    | .mk ident attrs id (ItemKind.mod items) vis span =>
        let processed := delete_items filter items
        let toDelete := idxsTrue (processed.map Prod.fst) 0
        (false, .mk ident attrs id
          (ItemKind.mod (removeIdxs (processed.map Prod.snd) toDelete 0)) vis span)
    | it => (false, it)

/-- The per-child loop of `delete_item`: run `delete_item` on each
child in order, collecting each verdict with the rewritten child. -/
def delete_items (filter : Filter) : List Item → List (Bool × Item)
  | [] => []
  | item :: rest => delete_item filter item :: delete_items filter rest
end

/-- Model of `dummy_item` in `lib.rs`: the arbitrary item swapped into
the child slot while the real child is processed. -/
def dummy_item : Item :=
  .mk "" [] 0 ItemKind.externCrate .public { lo := 0, hi := 0, ctxt := 0 }

mutual
/-- The parsed expression type of `filter.rs`: a quoted string or a
named call. -/
inductive Expr : Type where
  | quote (s : String) : Expr
  | call (c : Call) : Expr

/-- A named call with its ordered argument list. -/
inductive Call : Type where
  | mk (name : String) (args : List Expr) : Call
end

def Call.name : Call → String
  | .mk n _ => n

def Call.args : Call → List Expr
  | .mk _ a => a

/-- Model of nom's `IResult`: a successful parse with the remaining
input, a parse error, or a request for more input. -/
inductive PResult (α : Type) where
  | done (rest : List Char) (val : α) : PResult α
  | error : PResult α
  | incomplete : PResult α

/-- The whitespace class skipped by nom's `ws!` combinator. -/
def isSpaceChar (c : Char) : Bool :=
  c = ' ' || c = '\t' || c = '\n' || c = '\r'

/-- Skip leading whitespace (the separator eaten by `ws!`). -/
def dropSp (cs : List Char) : List Char := cs.dropWhile isSpaceChar

/-- Model of nom's `char!(c)`: `Incomplete` on empty input, otherwise
consume the first character if it is `c`. -/
def charP (c : Char) : List Char → PResult Char
  | [] => .incomplete
  | x :: rest => if x = c then .done rest x else .error

/-- Model of nom's `take_until!("\"")`: consume up to (not including)
the first double quote; `Incomplete` if there is none. -/
def takeUntilQuote : List Char → PResult (List Char)
  | [] => .incomplete
  | c :: rest =>
      if c = '"' then .done (c :: rest) []
      else
        match takeUntilQuote rest with
        | .done r v => .done r (c :: v)
        | .error => .error
        | .incomplete => .incomplete

/-- The `quote` parser of `filter.rs`: a double quote, then everything
up to the next double quote, then that quote. -/
def quoteP (input : List Char) : PResult String :=
  match charP '"' input with
  | .done r1 _ =>
      match takeUntilQuote r1 with
      | .done r2 s =>
          match charP '"' r2 with
          | .done r3 _ => .done r3 (String.mk s)
          | .error => .error
          | .incomplete => .incomplete
      | .error => .error
      | .incomplete => .incomplete
  | .error => .error
  | .incomplete => .incomplete

/-- The character class of the `name` parser's regex `[a-z]`. -/
def isNameChar (c : Char) : Bool := 'a' ≤ c && c ≤ 'z'

/-- The `name` parser of `filter.rs` (`re_bytes_find!("^[a-z]+")`): the
maximal leading run of lowercase letters, an error if it is empty. -/
def nameP (input : List Char) : PResult String :=
  let run := input.takeWhile isNameChar
  if run.isEmpty then .error
  else .done (input.drop run.length) (String.mk run)

/-- The separator of the argument list, `ws!(char!(','))`. -/
def wsCommaP (input : List Char) : PResult Char :=
  match charP ',' (dropSp input) with
  | .done r c => .done (dropSp r) c
  | .error => .error
  | .incomplete => .incomplete

mutual
/-- The `expr` parser of `filter.rs`:
`alt_complete!(ws!(call) | ws!(quote))`.  `alt_complete!` treats an
`Incomplete` branch as a failure and moves on to the next branch.  The
`fuel` argument bounds the recursion depth (the Rust parser recurses on
the plain call stack); every entry point supplies ample fuel, so the
fuel-exhausted branch is never reached on inputs of the stated size. -/
def exprP : Nat → List Char → PResult Expr
  | 0, _ => .error
  | fuel + 1, input =>
      match callP fuel (dropSp input) with
      | .done r c => .done (dropSp r) (Expr.call c)
      | _ =>
        match quoteP (dropSp input) with
        | .done r s => .done (dropSp r) (Expr.quote s)
        | _ => .error

/-- The `call` parser of `filter.rs`: a `name` followed by an argument
list. -/
def callP : Nat → List Char → PResult Call
  | 0, _ => .error
  | fuel + 1, input =>
      match nameP input with
      | .done r1 n =>
          match argsP fuel r1 with
          | .done r2 args => .done r2 (Call.mk n args)
          | .error => .error
          | .incomplete => .incomplete
      | .error => .error
      | .incomplete => .incomplete

/-- The `args` parser of `filter.rs`:
`delimited!(ws!(char!('(')), separated_list!(ws!(char!(',')), expr), ws!(char!(')')))`. -/
def argsP : Nat → List Char → PResult (List Expr)
  | 0, _ => .error
  | fuel + 1, input =>
      match charP '(' (dropSp input) with
      | .done r1 _ =>
          match sepListP fuel (dropSp r1) with
          | .done r2 lst =>
              match charP ')' (dropSp r2) with
              | .done r3 _ => .done (dropSp r3) lst
              | .error => .error
              | .incomplete => .incomplete
          | .error => .error
          | .incomplete => .incomplete
      | .error => .error
      | .incomplete => .incomplete

/-- Model of nom's `separated_list!`: if the first element does not
parse the list is empty; a first element consuming nothing is an
error; otherwise iterate separator-then-element. -/
def sepListP : Nat → List Char → PResult (List Expr)
  | 0, _ => .error
  | fuel + 1, input =>
      match exprP fuel input with
      | .done i o =>
          if i.length = input.length then .error
          else sepLoopP fuel i [o]
      | _ => .done input []

/-- The iteration of `separated_list!`: stop (returning the elements
accumulated so far) as soon as the separator or the next element fails
to parse or fails to consume input. -/
def sepLoopP : Nat → List Char → List Expr → PResult (List Expr)
  | 0, _, _ => .error
  | fuel + 1, input, acc =>
      match wsCommaP input with
      | .done i2 _ =>
          if i2.length = input.length then .done input acc
          else
            match exprP fuel i2 with
            | .done i3 o3 =>
                if i3.length = i2.length then .done input acc
                else sepLoopP fuel i3 (acc ++ [o3])
            | _ => .done input acc
      | _ => .done input acc
end

/-- Fuel supplied to the top-level `call` parse: generous in the input
length, so that recursion depth (bounded by the nesting of the input)
never exhausts it. -/
def parse_fuel (cs : List Char) : Nat := 4 * (cs.length + 1)

/-- The error taxonomy of the pass, modelling the panics of
`filter.rs`: `grammar` is the panic on `IResult::Error` ("error parsing
input"), `unparsed` the panic on `IResult::Incomplete` ("unparsed
input"), and `semantic` the panics raised while compiling an
expression into a filter. -/
inductive FilterError where
  | grammar (input : String) : FilterError
  | unparsed (input : String) : FilterError
  | semantic (msg : String) : FilterError
deriving DecidableEq

/-- Model of `mk_no_arg_filter`: reject a non-empty argument list,
otherwise produce the given filter. -/
def mk_no_arg_filter (name : String) (args : List Expr) (filter : Filter) :
    Except String Filter :=
  if args.length ≠ 0 then .error (name ++ "() takes no arguments")
  else .ok filter

/-- Model of `mk_regex_filter`: exactly one argument, which must be a
string literal that compiles as a regex. -/
def mk_regex_filter (args : List Expr) : Except String Filter :=
  match args with
  | [arg] =>
      match arg with
      | Expr.quote s =>
          match Regex.new s with
          | .ok re => .ok (Filter.regex re)
          | .error err => .error ("regex(): could not parse argument: " ++ err)
      | _ => .error "regex() only takes a string argument"
  | _ => .error "regex() takes 1 argument"

mutual
/-- Model of `expr_to_filter`: dispatch on the call's name; a string
literal where a call is expected is an error, as is an unknown name. -/
def expr_to_filter : Expr → Except String Filter
  | Expr.quote _ => .error "unexpected string argument"
  | Expr.call (Call.mk name args) =>
      match name with
      | "test" => mk_no_arg_filter "test" args Filter.test
      | "bench" => mk_no_arg_filter "bench" args Filter.bench
      | "regex" => mk_regex_filter args
      | "fn" => mk_no_arg_filter "fn" args Filter.fn
      | "true" => mk_no_arg_filter "true" args Filter.always
      | "false" => mk_no_arg_filter "false" args Filter.never
      | "and" => mk_and_filter args
      | "or" => mk_or_filter args
      | "not" => mk_not_filter args
      | s => .error ("unrecognized function: " ++ s)

/-- Model of `mk_and_filter`: at least one argument, each compiled
recursively, combined with `AllFilter`.  The first argument's
compilation is unfolded one step from `args_to_filters` so that the
mutual recursion is structural. -/
def mk_and_filter : List Expr → Except String Filter
  | [] => .error "and() takes 1 or more arguments"
  | arg :: rest =>
      match expr_to_filter arg with
      | .ok f =>
          match args_to_filters rest with
          | .ok fs => .ok (andF (f :: fs))
          | .error e => .error e
      | .error e => .error e

/-- Model of `mk_or_filter`: at least one argument, each compiled
recursively, combined with `AnyFilter`.  The first argument's
compilation is unfolded one step from `args_to_filters` so that the
mutual recursion is structural. -/
def mk_or_filter : List Expr → Except String Filter
  | [] => .error "or() takes 1 or more arguments"
  | arg :: rest =>
      match expr_to_filter arg with
      | .ok f =>
          match args_to_filters rest with
          | .ok fs => .ok (orF (f :: fs))
          | .error e => .error e
      | .error e => .error e

/-- Model of `mk_not_filter`: exactly one argument, compiled and
negated. -/
def mk_not_filter (args : List Expr) : Except String Filter :=
  match args with
  | [arg] =>
      match expr_to_filter arg with
      | .ok f => .ok (notF f)
      | .error e => .error e
  | _ => .error "not() takes 1 argument"

/-- Model of `args_to_filters`: compile each argument in order. -/
def args_to_filters : List Expr → Except String (List Filter)
  | [] => .ok []
  | arg :: rest =>
      match expr_to_filter arg with
      | .ok f =>
          match args_to_filters rest with
          | .ok fs => .ok (f :: fs)
          | .error e => .error e
      | .error e => .error e
end

/-- Model of `parse_filter`: the top-level input must parse as a
`call` (note that the `Done` arm discards any remaining input), which
is then compiled into a filter. -/
def parse_filter (filter : String) : Except FilterError Filter :=
  match callP (parse_fuel filter.data) filter.data with
  | .done _ out =>
      match expr_to_filter (Expr.call out) with
      | .ok f => .ok f
      | .error msg => .error (.semantic msg)
  | .error => .error (.grammar filter)
  | .incomplete => .error (.unparsed filter)

/-- Model of `env_to_filter`: absence of the environment variable
disables filtering (`NeverFilter`); presence conjoins the parsed
filter with the negation of `RootModFilter`, so the root module is
never filtered out. -/
def env_to_filter (envVar : Option String) : Except FilterError Filter :=
  match envVar with
  | some filter =>
      match parse_filter filter with
      | .ok f => .ok (andF [notF Filter.rootMod, f])
      | .error e => .error e
  | none => .ok Filter.never

/-- Model of `modify_ast` in `lib.rs` restricted to the `Item` case:
build the filter from the environment and prune; a parse or compile
panic aborts before any mutation. -/
def modify_ast (envVar : Option String) (item : Item) : Except FilterError Item :=
  match env_to_filter envVar with
  | .ok f => .ok (delete_item f item).2
  | .error e => .error e

/-- Classifier: is this outcome a grammar-class failure (the panic on
`IResult::Error`)? -/
def isGrammarErr : Except FilterError Filter → Bool
  | .error (.grammar _) => true
  | _ => false

/-- Classifier: is this outcome a semantic-class failure (a panic from
the filter compiler)? -/
def isSemanticErr : Except FilterError Filter → Bool
  | .error (.semantic _) => true
  | _ => false

/-! Helper lemmas about the pruner and the filters. -/

/-- A matched item is marked for deletion and returned untouched. -/
theorem delete_item_of_apply_true {f : Filter} {it : Item}
    (h : f.apply it = true) : delete_item f it = (true, it) := by
  unfold delete_item
  simp [h]

/-- Unfolding of `delete_item` on an unmatched module, with the raw
index-bookkeeping removal loop. -/
theorem delete_item_mod_eq {f : Filter} {i : String} {a : List String}
    {n : Nat} {items : List Item} {v : Visibility} {s : Span}
    (h : f.apply (.mk i a n (ItemKind.mod items) v s) = false) :
    delete_item f (.mk i a n (ItemKind.mod items) v s)
      = (false, .mk i a n
          (ItemKind.mod (removeIdxs ((delete_items f items).map Prod.snd)
            (idxsTrue ((delete_items f items).map Prod.fst) 0) 0)) v s) := by
  unfold delete_item
  simp [h]

/-- Unfolding of `delete_item` on an unmatched non-module item: it is
returned untouched. -/
theorem delete_item_nonmod {f : Filter} {it : Item}
    (h : f.apply it = false) (hk : ∀ items, it.node ≠ ItemKind.mod items) :
    delete_item f it = (false, it) := by
  cases it with
  | mk i a n k v s =>
      cases k with
      | mod items => exact absurd rfl (hk items)
      | fn => unfold delete_item; simp [h]
      | externCrate => unfold delete_item; simp [h]
      | other => unfold delete_item; simp [h]

/-- Erasing exactly at the length of a prefix removes the head of the
suffix. -/
theorem eraseIdx_append_cons (pre : List α) (a : α) (l : List α) :
    (pre ++ a :: l).eraseIdx pre.length = pre ++ l := by
  induction pre with
  | nil => rfl
  | cons x xs ih => simpa [List.eraseIdx] using ih

/-- The offset bookkeeping of the removal loop is correct: removing the
recorded indices (each shifted down by the number of removals already
made) from a list extended by an arbitrary prefix erases exactly the
flagged elements of the suffix. -/
theorem removeIdxs_idxsTrue_aux (ps : List (Bool × α)) :
    ∀ (pre : List α) (o : Nat),
      removeIdxs (pre ++ ps.map Prod.snd)
          (idxsTrue (ps.map Prod.fst) (o + pre.length)) o
        = pre ++ (ps.filter (fun p => !p.1)).map Prod.snd := by
  induction ps with
  | nil => intro pre o; simp [removeIdxs]
  | cons hd tl ih =>
      intro pre o
      cases hflag : hd.1 with
      | true =>
          have h1 : (pre ++ hd.2 :: tl.map Prod.snd).eraseIdx (o + pre.length - o)
              = pre ++ tl.map Prod.snd := by
            simpa using eraseIdx_append_cons pre hd.2 (tl.map Prod.snd)
          simp only [List.map_cons, hflag, idxsTrue, if_pos rfl, removeIdxs, h1,
            List.filter_cons]
          have := ih pre (o + 1)
          rw [show o + 1 + pre.length = o + pre.length + 1 from by omega] at this
          simpa [hflag] using this
      | false =>
          simp only [List.map_cons, hflag, idxsTrue, removeIdxs, List.filter_cons]
          have := ih (pre ++ [hd.2]) o
          rw [show o + (pre ++ [hd.2]).length = o + pre.length + 1 from by
            simp; omega] at this
          simpa [hflag] using this

/-- Special case used by the pruner: the removal loop deletes exactly
the flagged children, keeping the survivors in their original relative
order. -/
theorem removeIdxs_idxsTrue (ps : List (Bool × α)) :
    removeIdxs (ps.map Prod.snd) (idxsTrue (ps.map Prod.fst) 0) 0
      = (ps.filter (fun p => !p.1)).map Prod.snd := by
  simpa using removeIdxs_idxsTrue_aux ps [] 0

/-- Unfolding of `delete_item` on an unmatched module, with the removal
loop rewritten as an order-preserving filter of the processed
children. -/
theorem delete_item_mod_filter {f : Filter} {i : String} {a : List String}
    {n : Nat} {items : List Item} {v : Visibility} {s : Span}
    (h : f.apply (.mk i a n (ItemKind.mod items) v s) = false) :
    delete_item f (.mk i a n (ItemKind.mod items) v s)
      = (false, .mk i a n
          (ItemKind.mod (((delete_items f items).filter (fun p => !p.1)).map Prod.snd))
          v s) := by
  rw [delete_item_mod_eq h, removeIdxs_idxsTrue]

/-- The deletion verdict of `delete_item` is exactly the filter's
verdict. -/
theorem delete_item_fst (f : Filter) (it : Item) :
    (delete_item f it).1 = f.apply it := by
  cases h : f.apply it with
  | true => rw [delete_item_of_apply_true h]
  | false =>
      cases it with
      | mk i a n k v s => cases k <;> (unfold delete_item; simp [h])

mutual
/-- Locality of filter evaluation: the verdict depends only on the
item's name, its marker set (attribute membership) and its kind
discriminator — on no other field, and on no other node. -/
theorem apply_congr : ∀ (f : Filter) (it1 it2 : Item),
    it1.ident = it2.ident →
    (∀ m, it1.attrs.contains m = it2.attrs.contains m) →
    it1.kindTag = it2.kindTag →
    f.apply it1 = f.apply it2
  | .all fs, it1, it2, h1, h2, h3 => by
      simpa [Filter.apply] using applyAll_congr fs it1 it2 h1 h2 h3
  | .any fs, it1, it2, h1, h2, h3 => by
      simpa [Filter.apply] using applyAny_congr fs it1 it2 h1 h2 h3
  | .not f, it1, it2, h1, h2, h3 => by
      simp [Filter.apply, apply_congr f it1 it2 h1 h2 h3]
  | .always, _, _, _, _, _ => rfl
  | .never, _, _, _, _, _ => rfl
  | .regex re, it1, it2, h1, _, _ => by simp [Filter.apply, h1]
  | .test, it1, it2, _, h2, _ => by
      simpa [Filter.apply] using h2 "test"
  | .bench, it1, it2, _, h2, _ => by
      simpa [Filter.apply] using h2 "bench"
  | .fn, it1, it2, _, _, h3 => by
      cases it1 with
      | mk i1 a1 n1 k1 v1 s1 =>
          cases it2 with
          | mk i2 a2 n2 k2 v2 s2 =>
              simp only [Item.kindTag, Item.node, ItemKind.tag] at h3
              cases k1 <;> cases k2 <;>
                simp_all [Filter.apply, Item.node, ItemKind.tag]
  | .rootMod, it1, it2, h1, _, h3 => by
      cases it1 with
      | mk i1 a1 n1 k1 v1 s1 =>
          cases it2 with
          | mk i2 a2 n2 k2 v2 s2 =>
              simp only [Item.ident] at h1
              simp only [Item.kindTag, Item.node, ItemKind.tag] at h3
              cases k1 <;> cases k2 <;>
                simp_all [Filter.apply, Item.node, Item.ident, ItemKind.tag]

/-- List version of `apply_congr` for the `AllFilter` loop. -/
theorem applyAll_congr : ∀ (fs : List Filter) (it1 it2 : Item),
    it1.ident = it2.ident →
    (∀ m, it1.attrs.contains m = it2.attrs.contains m) →
    it1.kindTag = it2.kindTag →
    applyAll fs it1 = applyAll fs it2
  | [], _, _, _, _, _ => rfl
  | f :: rest, it1, it2, h1, h2, h3 => by
      simp only [applyAll, apply_congr f it1 it2 h1 h2 h3,
        applyAll_congr rest it1 it2 h1 h2 h3]

/-- List version of `apply_congr` for the `AnyFilter` loop. -/
theorem applyAny_congr : ∀ (fs : List Filter) (it1 it2 : Item),
    it1.ident = it2.ident →
    (∀ m, it1.attrs.contains m = it2.attrs.contains m) →
    it1.kindTag = it2.kindTag →
    applyAny fs it1 = applyAny fs it2
  | [], _, _, _, _, _ => rfl
  | f :: rest, it1, it2, h1, h2, h3 => by
      simp only [applyAny, apply_congr f it1 it2 h1 h2 h3,
        applyAny_congr rest it1 it2 h1 h2 h3]
end

/-- Pruning preserves every field of the node it is applied to except
(for modules) the child sequence: name, markers, id, visibility, span
and the kind discriminator all survive. -/
theorem delete_item_preserves (f : Filter) (it : Item) :
    (delete_item f it).2.ident = it.ident ∧ (delete_item f it).2.attrs = it.attrs ∧
    (delete_item f it).2.id = it.id ∧ (delete_item f it).2.vis = it.vis ∧
    (delete_item f it).2.span = it.span ∧ (delete_item f it).2.kindTag = it.kindTag := by
  cases it with
  | mk i a n k v s =>
      cases h : f.apply (Item.mk i a n k v s) with
      | true => simp [delete_item_of_apply_true h]
      | false =>
          cases k <;>
            (unfold delete_item
             simp [h, Item.ident, Item.attrs, Item.id, Item.vis, Item.span,
               Item.kindTag, Item.node, ItemKind.tag])

mutual
/-- Idempotence of the pruner on a single item: re-running
`delete_item` on the rewritten item reproduces the same verdict and
the same item. -/
theorem delete_item_idem : ∀ (f : Filter) (it : Item),
    delete_item f (delete_item f it).2 = delete_item f it
  | f, .mk i a n (ItemKind.mod items) v s => by
      cases h : Filter.apply f (Item.mk i a n (ItemKind.mod items) v s) with
      | true => simp [delete_item_of_apply_true h]
      | false =>
          rw [delete_item_mod_filter h]
          have happly : Filter.apply f (Item.mk i a n (ItemKind.mod
              (((delete_items f items).filter (fun p => !p.1)).map Prod.snd)) v s)
              = false :=
            (apply_congr f
              (Item.mk i a n (ItemKind.mod
                (((delete_items f items).filter (fun p => !p.1)).map Prod.snd)) v s)
              (Item.mk i a n (ItemKind.mod items) v s) rfl
              (fun m => rfl) rfl).trans h
          rw [delete_item_mod_filter happly, delete_items_idem f items,
            List.filter_eq_self.mpr (fun x hx => (List.mem_filter.mp hx).2)]
  | f, .mk i a n ItemKind.fn v s => by
      cases h : Filter.apply f (Item.mk i a n ItemKind.fn v s) with
      | true => simp [delete_item_of_apply_true h]
      | false =>
          simp [delete_item_nonmod h (fun items hk => by simp [Item.node] at hk)]
  | f, .mk i a n ItemKind.externCrate v s => by
      cases h : Filter.apply f (Item.mk i a n ItemKind.externCrate v s) with
      | true => simp [delete_item_of_apply_true h]
      | false =>
          simp [delete_item_nonmod h (fun items hk => by simp [Item.node] at hk)]
  | f, .mk i a n ItemKind.other v s => by
      cases h : Filter.apply f (Item.mk i a n ItemKind.other v s) with
      | true => simp [delete_item_of_apply_true h]
      | false =>
          simp [delete_item_nonmod h (fun items hk => by simp [Item.node] at hk)]

/-- Idempotence of the pruner on a child sequence: re-running the
per-child loop on the surviving (already pruned) children finds
nothing further to delete and changes nothing. -/
theorem delete_items_idem : ∀ (f : Filter) (items : List Item),
    delete_items f (((delete_items f items).filter (fun p => !p.1)).map Prod.snd)
      = (delete_items f items).filter (fun p => !p.1)
  | _, [] => rfl
  | f, it :: rest => by
      cases h : (delete_item f it).1 with
      | true =>
          simp only [delete_items, List.filter_cons, h, Bool.not_true,
            Bool.false_eq_true, if_false]
          exact delete_items_idem f rest
      | false =>
          simp only [delete_items, List.filter_cons, h, Bool.not_false, if_true,
            List.map_cons]
          rw [delete_item_idem f it, delete_items_idem f rest]
end

/-- With the filter compiled from `"true()"` (that is,
`AllFilter [NotFilter RootModFilter, AlwaysFilter]`), every child that
`RootModFilter` rejects is marked, so no child survives the per-child
loop. -/
theorem trueFilter_marks_all (items : List Item)
    (h : ∀ c ∈ items, Filter.rootMod.apply c = false) :
    (delete_items (Filter.all [Filter.not Filter.rootMod, Filter.always]) items).filter
        (fun p => !p.1) = [] := by
  induction items with
  | nil => rfl
  | cons c rest ih =>
      have hc : Filter.apply (Filter.all [Filter.not Filter.rootMod, Filter.always]) c
          = true := by
        have hr := h c (List.mem_cons_self c rest)
        simp only [Filter.apply] at hr
        simp [Filter.apply, applyAll, hr]
      simp only [delete_items, List.filter_cons, delete_item_of_apply_true hc,
        Bool.not_true, Bool.false_eq_true, if_false]
      exact ih (fun x hx => h x (List.mem_cons_of_mem c hx))

/-! The frozen claims. -/

/-- Claim C1: for every rule string that parses and compiles
successfully, the top-level compiled predicate (the user predicate
conjoined with NOT `RootModFilter`) evaluates to false on every node
whose kind is `Mod` and whose name is empty, so pruning never marks
the root for removal, regardless of the user-supplied rule. -/
theorem claimC1 (s : String) (p : Filter)
    (hp : env_to_filter (some s) = Except.ok p)
    (attrs : List String) (n : Nat) (items : List Item) (v : Visibility) (sp : Span) :
    p.apply (Item.mk "" attrs n (ItemKind.mod items) v sp) = false ∧
    (delete_item p (Item.mk "" attrs n (ItemKind.mod items) v sp)).1 = false := by
  have hp2 : (match parse_filter s with
      | Except.ok f => Except.ok (andF [notF Filter.rootMod, f])
      | Except.error e => Except.error e) = Except.ok p := hp
  have hshape : ∃ q, p = Filter.all [Filter.not Filter.rootMod, q] := by
    cases hq : parse_filter s with
    | ok f =>
        rw [hq] at hp2
        injection hp2 with hp2
        exact ⟨f, hp2.symm⟩
    | error e => rw [hq] at hp2; cases hp2
  obtain ⟨q, rfl⟩ := hshape
  have happ : Filter.apply (Filter.all [Filter.not Filter.rootMod, q])
      (Item.mk "" attrs n (ItemKind.mod items) v sp) = false := by
    simp [Filter.apply, applyAll, Item.node, Item.ident]
  exact ⟨happ, by rw [delete_item_fst]; exact happ⟩

/-- Witness for C1 at the rule `"true()"` and a concrete root node. -/
theorem claimC1_witness :
    (Filter.all [Filter.not Filter.rootMod, Filter.always]).apply
        (Item.mk "" [] 0 (ItemKind.mod []) .public ⟨0, 0, 0⟩) = false ∧
    (delete_item (Filter.all [Filter.not Filter.rootMod, Filter.always])
        (Item.mk "" [] 0 (ItemKind.mod []) .public ⟨0, 0, 0⟩)).1 = false :=
  claimC1 "true()" _ rfl [] 0 [] .public ⟨0, 0, 0⟩

/-- Counterexample to claim C2: the input `"test()garbage"` begins
with a valid top-level call and is followed by unconsumed characters,
yet `parse_filter` does not report a grammar error — the `Done` arm
ignores the leftover input and the prefix is compiled. -/
theorem claimC2_counterexample :
    parse_filter "test()garbage" = Except.ok Filter.test ∧
    isGrammarErr (parse_filter "test()garbage") = false :=
  ⟨rfl, rfl⟩

/-- Claim C2 as amended: when the input begins with a syntactically
valid top-level call followed by additional unconsumed characters, the
trailing input is silently discarded and the consumed prefix alone is
compiled (successfully, or with its own semantic error) — no grammar
error is raised for the leftover. -/
theorem claimC2_amended (s : String) (r : List Char) (c : Call)
    (hcall : callP (parse_fuel s.data) s.data = .done r c) (hr : r ≠ []) :
    parse_filter s = match expr_to_filter (Expr.call c) with
      | .ok f => Except.ok f
      | .error msg => Except.error (FilterError.semantic msg) := by
  unfold parse_filter
  rw [hcall]

/-- Witness for the amended C2 at the input `"test()garbage"`. -/
theorem claimC2_witness :
    parse_filter "test()garbage"
      = match expr_to_filter (Expr.call (Call.mk "test" [])) with
        | .ok f => Except.ok f
        | .error msg => Except.error (FilterError.semantic msg) :=
  claimC2_amended "test()garbage" "garbage".data (Call.mk "test" []) rfl (by decide)

/-- Counterexample to claim C3: under the predicate compiled from
`"true()"`, a non-root child that is itself an empty-named module is
kept (the root-protection conjunct matches it too), so not every
non-root child is removed and the root's child sequence is not empty
afterwards. -/
theorem claimC3_counterexample :
    env_to_filter (some "true()")
      = Except.ok (Filter.all [Filter.not Filter.rootMod, Filter.always]) ∧
    (delete_item (Filter.all [Filter.not Filter.rootMod, Filter.always])
        (Item.mk "" [] 0
          (ItemKind.mod [Item.mk "" [] 1 (ItemKind.mod []) .public ⟨0, 0, 0⟩])
          .public ⟨0, 0, 0⟩)).2
      = Item.mk "" [] 0
          (ItemKind.mod [Item.mk "" [] 1 (ItemKind.mod []) .public ⟨0, 0, 0⟩])
          .public ⟨0, 0, 0⟩ ∧
    (Item.mk "" [] 0
        (ItemKind.mod [Item.mk "" [] 1 (ItemKind.mod []) .public ⟨0, 0, 0⟩])
        .public ⟨0, 0, 0⟩).node ≠ ItemKind.mod [] := by
  refine ⟨rfl, rfl, ?_⟩
  simp [Item.node]

/-- Claim C3 as amended: pruning with the predicate compiled from
`"true()"` removes every child of the root on which `RootModFilter`
returns false (in particular every child that is not an empty-named
module); if no direct child looks like a root module, the root survives
with an empty child sequence. -/
theorem claimC3_amended (p : Filter)
    (hp : env_to_filter (some "true()") = Except.ok p)
    (attrs : List String) (n : Nat) (items : List Item) (v : Visibility) (s : Span)
    (hchildren : ∀ c ∈ items, Filter.rootMod.apply c = false) :
    delete_item p (Item.mk "" attrs n (ItemKind.mod items) v s)
      = (false, Item.mk "" attrs n (ItemKind.mod []) v s) := by
  have hp0 : env_to_filter (some "true()")
      = Except.ok (Filter.all [Filter.not Filter.rootMod, Filter.always]) := rfl
  rw [hp0] at hp
  injection hp with hp
  subst hp
  have happ : Filter.apply (Filter.all [Filter.not Filter.rootMod, Filter.always])
      (Item.mk "" attrs n (ItemKind.mod items) v s) = false := by
    simp [Filter.apply, applyAll, Item.node, Item.ident]
  rw [delete_item_mod_filter happ, trueFilter_marks_all items hchildren]
  rfl

/-- Witness for the amended C3 on a root with one ordinary child. -/
theorem claimC3_witness :
    delete_item (Filter.all [Filter.not Filter.rootMod, Filter.always])
        (Item.mk "" [] 0
          (ItemKind.mod [Item.mk "x" [] 1 ItemKind.fn .public ⟨0, 0, 0⟩])
          .public ⟨0, 0, 0⟩)
      = (false, Item.mk "" [] 0 (ItemKind.mod []) .public ⟨0, 0, 0⟩) :=
  claimC3_amended _ rfl [] 0 _ .public ⟨0, 0, 0⟩ (by
    intro c hc
    simp only [List.mem_singleton] at hc
    subst hc
    rfl)

/-- Claim C4: pruning an unmatched container removes exactly the
marked children and keeps the survivors in their original relative
order; moreover the `i - offset` index bookkeeping of the removal loop
is correct for every flag sequence (it implements exactly the
order-preserving filter). -/
theorem claimC4 (f : Filter) (i : String) (a : List String) (n : Nat)
    (items : List Item) (v : Visibility) (s : Span)
    (h : f.apply (Item.mk i a n (ItemKind.mod items) v s) = false) :
    delete_item f (Item.mk i a n (ItemKind.mod items) v s)
      = (false, Item.mk i a n (ItemKind.mod
          (((delete_items f items).filter (fun p => !p.1)).map Prod.snd)) v s)
    ∧ ∀ (ps : List (Bool × Item)),
        removeIdxs (ps.map Prod.snd) (idxsTrue (ps.map Prod.fst) 0) 0
          = (ps.filter (fun p => !p.1)).map Prod.snd :=
  ⟨delete_item_mod_filter h, fun ps => removeIdxs_idxsTrue ps⟩

/-- Witness for C4 on children `[A, B, C, D]` with `B` and `D` marked
(by the `test` marker): the survivors are exactly `[A, C]` in order. -/
theorem claimC4_witness :
    delete_item Filter.test
      (Item.mk "p" [] 0 (ItemKind.mod
        [Item.mk "a" [] 1 ItemKind.fn .public ⟨0, 0, 0⟩,
         Item.mk "b" ["test"] 2 ItemKind.fn .public ⟨0, 0, 0⟩,
         Item.mk "c" [] 3 ItemKind.fn .public ⟨0, 0, 0⟩,
         Item.mk "d" ["test"] 4 ItemKind.fn .public ⟨0, 0, 0⟩]) .public ⟨0, 0, 0⟩)
      = (false, Item.mk "p" [] 0 (ItemKind.mod
          [Item.mk "a" [] 1 ItemKind.fn .public ⟨0, 0, 0⟩,
           Item.mk "c" [] 3 ItemKind.fn .public ⟨0, 0, 0⟩]) .public ⟨0, 0, 0⟩) :=
  (claimC4 Filter.test "p" [] 0
    [Item.mk "a" [] 1 ItemKind.fn .public ⟨0, 0, 0⟩,
     Item.mk "b" ["test"] 2 ItemKind.fn .public ⟨0, 0, 0⟩,
     Item.mk "c" [] 3 ItemKind.fn .public ⟨0, 0, 0⟩,
     Item.mk "d" ["test"] 4 ItemKind.fn .public ⟨0, 0, 0⟩]
    .public ⟨0, 0, 0⟩ rfl).1

/-- Claim C5: a node the predicate matches is marked and its entire
subtree is returned untouched (discarded wholesale by the parent, with
no recursion into its children); only when the predicate rejects a
node are its own children recursively pruned. -/
theorem claimC5 (f : Filter) (it : Item) :
    (f.apply it = true → delete_item f it = (true, it)) ∧
    (f.apply it = false → (delete_item f it).1 = false ∧
      ∀ (i : String) (a : List String) (n : Nat) (items : List Item)
        (v : Visibility) (s : Span),
        it = Item.mk i a n (ItemKind.mod items) v s →
        (delete_item f it).2 = Item.mk i a n (ItemKind.mod
          (((delete_items f items).filter (fun p => !p.1)).map Prod.snd)) v s) := by
  refine ⟨fun h => delete_item_of_apply_true h, fun h => ⟨?_, ?_⟩⟩
  · rw [delete_item_fst, h]
  · intro i a n items v s hit
    subst hit
    rw [delete_item_mod_filter h]

/-- Witness for C5: a matched module is returned with its (marked)
child intact, while an unmatched parent has its marked child removed. -/
theorem claimC5_witness :
    delete_item Filter.test
        (Item.mk "b" ["test"] 2
          (ItemKind.mod [Item.mk "x" ["test"] 5 ItemKind.fn .public ⟨0, 0, 0⟩])
          .public ⟨0, 0, 0⟩)
      = (true, Item.mk "b" ["test"] 2
          (ItemKind.mod [Item.mk "x" ["test"] 5 ItemKind.fn .public ⟨0, 0, 0⟩])
          .public ⟨0, 0, 0⟩) ∧
    (delete_item Filter.test
        (Item.mk "p" [] 0
          (ItemKind.mod [Item.mk "x" ["test"] 5 ItemKind.fn .public ⟨0, 0, 0⟩])
          .public ⟨0, 0, 0⟩)).2
      = Item.mk "p" [] 0 (ItemKind.mod []) .public ⟨0, 0, 0⟩ :=
  ⟨(claimC5 Filter.test
      (Item.mk "b" ["test"] 2
        (ItemKind.mod [Item.mk "x" ["test"] 5 ItemKind.fn .public ⟨0, 0, 0⟩])
        .public ⟨0, 0, 0⟩)).1 rfl,
   ((claimC5 Filter.test
      (Item.mk "p" [] 0
        (ItemKind.mod [Item.mk "x" ["test"] 5 ItemKind.fn .public ⟨0, 0, 0⟩])
        .public ⟨0, 0, 0⟩)).2 rfl).2 "p" [] 0
     [Item.mk "x" ["test"] 5 ItemKind.fn .public ⟨0, 0, 0⟩] .public ⟨0, 0, 0⟩ rfl⟩

/-- Claim C6: pruning is idempotent — pruning the already-pruned tree
a second time with the same predicate produces the same verdict and
the same tree. -/
theorem claimC6 (f : Filter) (it : Item) :
    delete_item f (delete_item f it).2 = delete_item f it :=
  delete_item_idem f it

/-- Claim C7: `RegexFilter` matches anywhere in the node's name unless
the pattern anchors itself.  The predicate compiled from
`"not(regex(\"^foo\"))"` keeps a node named `"foobar"` (verdict false)
and removes a node named `"barfoo"` (verdict true); an unanchored
`"foo"` matches in the middle of a name. -/
theorem claimC7 :
    parse_filter "not(regex(\"^foo\"))"
      = Except.ok (Filter.not (Filter.regex { anchored := true, lit := "foo" })) ∧
    (Filter.not (Filter.regex { anchored := true, lit := "foo" })).apply
        (Item.mk "foobar" [] 0 ItemKind.fn .public ⟨0, 0, 0⟩) = false ∧
    (Filter.not (Filter.regex { anchored := true, lit := "foo" })).apply
        (Item.mk "barfoo" [] 0 ItemKind.fn .public ⟨0, 0, 0⟩) = true ∧
    (Filter.regex { anchored := false, lit := "foo" }).apply
        (Item.mk "barfoox" [] 0 ItemKind.fn .public ⟨0, 0, 0⟩) = true ∧
    (Filter.regex { anchored := false, lit := "foo" }).apply
        (Item.mk "barf" [] 0 ItemKind.fn .public ⟨0, 0, 0⟩) = false :=
  ⟨rfl, rfl, rfl, rfl, rfl⟩

/-- Counterexample to claim C8: `"test(1)"` (and likewise
`"regex(1)"`) is rejected by the grammar — `1` is not a parseable
expression — so the failure is a grammar error, not a semantic error
naming the function. -/
theorem claimC8_counterexample :
    parse_filter "test(1)" = Except.error (FilterError.grammar "test(1)") ∧
    isSemanticErr (parse_filter "test(1)") = false ∧
    isSemanticErr (parse_filter "regex(1)") = false :=
  ⟨rfl, rfl, rfl⟩

/-- Claim C8 as amended: `"and()"` and `"regex()"` fail with semantic
errors naming the function and the expected shape, while `"test(1)"`
and `"regex(1)"` already fail in the grammar (a bare `1` is not an
expression); in every case the pass aborts with an error before any
tree mutation. -/
theorem claimC8_amended :
    parse_filter "and()"
      = Except.error (FilterError.semantic "and() takes 1 or more arguments") ∧
    parse_filter "regex()"
      = Except.error (FilterError.semantic "regex() takes 1 argument") ∧
    parse_filter "test(1)" = Except.error (FilterError.grammar "test(1)") ∧
    parse_filter "regex(1)" = Except.error (FilterError.grammar "regex(1)") ∧
    env_to_filter (some "and()")
      = Except.error (FilterError.semantic "and() takes 1 or more arguments") ∧
    modify_ast (some "and()")
        (Item.mk "" [] 0
          (ItemKind.mod [Item.mk "t" ["test"] 1 ItemKind.fn .public ⟨0, 0, 0⟩])
          .public ⟨0, 0, 0⟩)
      = Except.error (FilterError.semantic "and() takes 1 or more arguments") :=
  ⟨rfl, rfl, rfl, rfl, rfl, rfl⟩

/-- Claim C9: predicate evaluation is local — any two nodes agreeing
on name, marker membership and kind discriminator receive the same
verdict from every compiled filter, whatever their other fields,
children or surroundings. -/
theorem claimC9 (f : Filter) (it1 it2 : Item)
    (hname : it1.ident = it2.ident)
    (hmarks : ∀ m, it1.attrs.contains m = it2.attrs.contains m)
    (hkind : it1.kindTag = it2.kindTag) :
    f.apply it1 = f.apply it2 :=
  apply_congr f it1 it2 hname hmarks hkind

/-- Witness for C9: two nodes with the same name, markers and kind but
different ids, spans, visibilities and children get the same verdict. -/
theorem claimC9_witness :
    (Filter.not Filter.test).apply
        (Item.mk "x" ["test"] 0
          (ItemKind.mod [Item.mk "y" [] 1 ItemKind.fn .public ⟨0, 0, 0⟩])
          .public ⟨0, 0, 0⟩)
      = (Filter.not Filter.test).apply
        (Item.mk "x" ["test"] 99 (ItemKind.mod []) .inherited ⟨5, 7, 2⟩) :=
  claimC9 (Filter.not Filter.test) _ _ rfl (fun _ => rfl) rfl

/-- Claim C10: pruning mutates only the child sequences of modules —
every pruned node keeps its name, markers, id, visibility, span and
kind discriminator (the dummy swapped in during processing never
leaks), and a non-module node that is not removed is returned entirely
unchanged. -/
theorem claimC10 (f : Filter) (it : Item) :
    ((delete_item f it).2.ident = it.ident ∧ (delete_item f it).2.attrs = it.attrs ∧
     (delete_item f it).2.id = it.id ∧ (delete_item f it).2.vis = it.vis ∧
     (delete_item f it).2.span = it.span ∧ (delete_item f it).2.kindTag = it.kindTag) ∧
    ((∀ items, it.node ≠ ItemKind.mod items) → (delete_item f it).2 = it) := by
  refine ⟨delete_item_preserves f it, fun hk => ?_⟩
  cases h : f.apply it with
  | true => rw [delete_item_of_apply_true h]
  | false => rw [delete_item_nonmod h hk]

/-- Witness for C10 on a concrete non-module node. -/
theorem claimC10_witness :
    (delete_item Filter.always (Item.mk "n" ["test"] 3 ItemKind.fn .inherited ⟨1, 2, 3⟩)).2
      = Item.mk "n" ["test"] 3 ItemKind.fn .inherited ⟨1, 2, 3⟩ :=
  (claimC10 Filter.always _).2 (fun _ hk => ItemKind.noConfusion hk)

end DisableCode
